import Mathlib

/-!
# Verification of the era-cheatcodes `CheatcodeTracer`

Shallow embedding of the tracer logic in
`src/crates/era-cheatcodes/cheatcodes-debug.rs`: the deferred-action
scheduler, the expect-revert / expect-call trackers, the prank/broadcast
context, the snapshot manager and a handful of cheatcode dispatch arms.

Addresses (`H160`), storage words (`H256`/`U256`) and byte strings are
modelled as `Nat` and `List Nat`.  Rust `Vec` queues are Lean lists with
`push` appending at the end and `pop` removing the last element.
`HashMap`s are association lists whose meaning is given by `List.lookup`
(first match wins), so inserting/extending conses the new bindings in
front.
-/

/-- The reserved cheatcode address
`0x7109709ecfa91a80626ff3989d68f67f5b1dd12d` (`CHEATCODE_ADDRESS`). -/
def CHEATCODE_ADDRESS : Nat := 0x7109709ecfa91a80626ff3989d68f67f5b1dd12d

/-- `TEST_ADDRESS = 0x2e1908b13b8b625ed13ecf03c87d45c499d1f325`. -/
def TEST_ADDRESS : Nat := 0x2e1908b13b8b625ed13ecf03c87d45c499d1f325

/-- Modelled from the spec: `zksync_types::SYSTEM_CONTEXT_ADDRESS`, the
system-context system-contract address (`0x800b`), an external constant
used by `get_modified_storage` to filter system-context keys. -/
def SYSTEM_CONTEXT_ADDRESS : Nat := 0x800b

/-- Modelled from the spec: `zksync_types::SYSTEM_CONTEXT_TX_ORIGIN_POSITION`,
the storage slot of `tx.origin` inside the system-context contract. -/
def SYSTEM_CONTEXT_TX_ORIGIN_POSITION : Nat := 1

/-- A zksync storage key: account address plus 256-bit slot
(`zksync_types::StorageKey`). -/
structure StorageKey where
  address : Nat
  key : Nat
deriving DecidableEq, Repr

/-- The key `(SYSTEM_CONTEXT_ADDRESS, SYSTEM_CONTEXT_TX_ORIGIN_POSITION)`
used by prank/broadcast origin overrides. -/
def txOriginKey : StorageKey :=
  ⟨SYSTEM_CONTEXT_ADDRESS, SYSTEM_CONTEXT_TX_ORIGIN_POSITION⟩

/-- `enum ExpectedCallType { NonCount, Count }`. -/
inductive ExpectedCallType
  | NonCount
  | Count
deriving DecidableEq, Repr

/-- `struct ExpectedCallData { value, count, call_type }`. -/
structure ExpectedCallData where
  value : Option Nat
  count : Nat
  call_type : ExpectedCallType
deriving DecidableEq, Repr

/-- The ret-opcode variants (`zkevm_opcode_defs::RetOpcode`). -/
inductive RetOpcode
  | Ok
  | Revert
  | Panic
deriving DecidableEq, Repr

/-- The opcode classification the tracer branches on. -/
inductive OpcodeKind
  | FarCall
  | Ret (op : RetOpcode)
  | NearCall
  | Other
deriving DecidableEq, Repr

/-- `enum FoundryTestState { NotStarted, Running { call_depth }, Finished }`. -/
inductive FoundryTestState
  | NotStarted
  | Running (call_depth : Nat)
  | Finished
deriving DecidableEq, Repr

/-- `enum FinishCycleOneTimeActions`: the deferred one-shot actions drained
by `finish_cycle`. -/
inductive FinishCycleOneTimeActions
  | StorageWrite (key : StorageKey) (read_value : Nat) (write_value : Nat)
  | StoreFactoryDep (hash : Nat) (bytecode : List Nat)
  | ForceRevert (error : List Nat) (exception_handler : Nat)
  | ForceReturn (data : List Nat) (continue_pc : Nat)
  | SetImmediateReturn (data : List Nat) (continue_pc : Nat)
      (base_memory_page : Nat) (code_page : Nat)
  | CreateSelectFork (url_or_alias : String) (block_number : Option Nat)
  | CreateFork (url_or_alias : String) (block_number : Option Nat)
  | RollFork (block_number : Nat) (fork_id : Option Nat)
  | SelectFork (fork_id : Nat)
  | RevertToSnapshot (snapshot_id : Nat)
  | Snapshot
  | SetOrigin (origin : Nat)
  | MakePersistentAccount (account : Nat)
  | MakePersistentAccounts (accounts : List Nat)
  | RevokePersistentAccount (account : Nat)
  | RevokePersistentAccounts (accounts : List Nat)
deriving DecidableEq, Repr

/-- `enum ActionOnReturn`: the expect-revert payload recorded by
`add_expect_revert`, including the continuation/exception-handler PCs
captured from the watched return. -/
inductive ActionOnReturn
  | ExpectRevert (reason : Option (List Nat)) (depth : Nat)
      (prev_continue_pc : Option Nat) (prev_exception_handler_pc : Option Nat)
deriving DecidableEq, Repr

/-- `struct NextReturnAction { target_depth, action, returns_to_skip }`. -/
structure NextReturnAction where
  target_depth : Nat
  action : ActionOnReturn
  returns_to_skip : Nat
deriving DecidableEq, Repr

/-- `struct StartPrankOpts { sender, origin }` (origin stores the previous
tx-origin so `stopPrank` can restore it). -/
structure StartPrankOpts where
  sender : Nat
  origin : Option Nat
deriving DecidableEq, Repr

/-- `struct BroadcastOpts { original_origin, original_caller, new_origin, depth }`. -/
structure BroadcastOpts where
  original_origin : Nat
  original_caller : Nat
  new_origin : Nat
  depth : Nat
deriving DecidableEq, Repr

/-- The expected-calls tracker `HashMap<H160, HashMap<Vec<u8>, (ExpectedCallData, u64)>>`
as an association list keyed by address, each inner map an association
list keyed by calldata. -/
abbrev ExpectedCallsTracker :=
  List (Nat × List (List Nat × ExpectedCallData × Nat))

/-- The slice of `CheatcodeTracer` state that the claims below touch:
the one-shot action queue, the armed expect-revert action, the prank and
broadcast contexts. -/
structure TracerState where
  one_time_actions : List FinishCycleOneTimeActions
  next_return_action : Option NextReturnAction
  start_prank : Option StartPrankOpts
  broadcast : Option BroadcastOpts
deriving DecidableEq, Repr

/-- `Default::default()` for the tracer slice. -/
def initialTracerState : TracerState :=
  { one_time_actions := []
    next_return_action := none
    start_prank := none
    broadcast := none }

/-- `self.one_time_actions.push(action)` (Vec push: append at the end). -/
def pushAction (s : TracerState) (a : FinishCycleOneTimeActions) : TracerState :=
  { s with one_time_actions := s.one_time_actions ++ [a] }

/-- `Vec::pop`: removes and returns the LAST element, with the remaining
vector. -/
def vecPop {α : Type} : List α → Option (List α × α)
  | [] => none
  | a :: rest =>
    match vecPop rest with
    | none => some ([], a)
    | some (front, x) => some (a :: front, x)

theorem vecPop_nil {α : Type} : vecPop ([] : List α) = none := rfl

theorem vecPop_append_singleton {α : Type} (l : List α) (a : α) :
    vecPop (l ++ [a]) = some (l, a) := by
  induction l with
  | nil => rfl
  | cons b bs ih => simp [vecPop, ih]

theorem vecPop_length {α : Type} :
    ∀ (l front : List α) (x : α), vecPop l = some (front, x) →
      front.length < l.length := by
  intro l
  induction l with
  | nil => intro front x h; simp [vecPop] at h
  | cons b bs ih =>
    intro front x h
    simp only [vecPop] at h
    cases hbs : vecPop bs with
    | none =>
      rw [hbs] at h
      cases h
      simp
    | some p =>
      rw [hbs] at h
      cases h
      have := ih p.1 p.2 (by rw [hbs])
      simp only [List.length_cons]
      omega

/-- The drain loop of `finish_cycle`:
`while let Some(action) = self.one_time_actions.pop() { ...apply action... }`.
Returns the actions in the order in which they are applied; at each step
the applied action has already been removed from the queue (`vecPop`)
before its apply arm runs. -/
def drainApplied {α : Type} (l : List α) : List α :=
  match h : vecPop l with
  | none => []
  | some (front, x) => x :: drainApplied front
termination_by l.length
decreasing_by exact vecPop_length l front x h

theorem drainApplied_nil {α : Type} : drainApplied ([] : List α) = [] := by
  unfold drainApplied
  rfl

theorem drainApplied_append_singleton {α : Type} (l : List α) (a : α) :
    drainApplied (l ++ [a]) = a :: drainApplied l := by
  rw [drainApplied.eq_def, vecPop_append_singleton]

theorem drainApplied_eq_reverse {α : Type} (l : List α) :
    drainApplied l = l.reverse := by
  induction l using List.reverseRecOn with
  | nil => exact drainApplied_nil
  | append_singleton xs x ih =>
    rw [drainApplied_append_singleton, ih, List.reverse_append]
    rfl

/-!
## Test lifecycle and the expected-call tracker (`after_execution`)
-/

/-- `update_test_status`: a far call into `TEST_ADDRESS` while `NotStarted`
starts the test at the current depth; a return observed (post-execution,
stack already popped) at `depth + 1 = call_depth` finishes it. -/
def updateTestStatus (ts : FoundryTestState) (op : OpcodeKind)
    (code_address : Nat) (depth : Nat) : FoundryTestState :=
  match op with
  | .FarCall =>
    if ts = .NotStarted ∧ code_address = TEST_ADDRESS then
      .Running depth
    else ts
  | .Ret _ =>
    match ts with
    | .Running call_depth =>
      if call_depth = depth + 1 then .Finished else ts
    | _ => ts
  | _ => ts

/-- `let failed = match expected.call_type { Count => expected.count != actual,
NonCount => expected.count > actual }` from the test-finish assertion. -/
def expectedCallFailed (expected : ExpectedCallData) (actual_count : Nat) : Bool :=
  match expected.call_type with
  | .Count => expected.count ≠ actual_count
  | .NonCount => expected.count > actual_count

/-- The data interpolated into the failing `assert!` message:
"Expected call to {address} with data {calldata} was found {actual} times,
expected {count}". -/
structure ExpectedCallFailure where
  address : Nat
  calldata : List Nat
  actual_count : Nat
  expected_count : Nat
deriving DecidableEq, Repr

/-- One entry of the test-finish loop: the failure report produced for a
single `(calldata, (expected, actual))` entry of a target, or `none` when
the entry passes. -/
def entryFailure (address : Nat) (e : List Nat × ExpectedCallData × Nat) :
    Option ExpectedCallFailure :=
  if expectedCallFailed e.2.1 e.2.2 then
    some ⟨address, e.1, e.2.2, e.2.1.count⟩
  else none

/-- The nested `for` loops over `self.expected_calls` at test finish,
collecting every failing entry (the Rust code panics at the first one;
the test fails iff this list is nonempty). -/
def expectedCallFailures (m : ExpectedCallsTracker) : List ExpectedCallFailure :=
  m.flatMap fun p => p.2.filterMap (entryFailure p.1)

/-- The `Finished` branch of `after_execution`: when the updated test
status is `Finished` the expected-call assertions run (result `some`),
otherwise nothing happens (`none`). -/
def afterExecutionFinishCheck (ts : FoundryTestState) (op : OpcodeKind)
    (code_address depth : Nat) (m : ExpectedCallsTracker) :
    Option (List ExpectedCallFailure) :=
  if updateTestStatus ts op code_address depth = .Finished then
    some (expectedCallFailures m)
  else none

/-- The expect-call matching condition from `after_execution`
(lines 519-530): the registered calldata is no longer than the call's
calldata, equals its prefix of that length, and the declared value, when
present, equals the transferred value. -/
def expectCallMatches (expected_calldata : List Nat) (expected : ExpectedCallData)
    (calldata : List Nat) (value : Nat) : Bool :=
  decide (expected_calldata.length ≤ calldata.length) &&
    decide (expected_calldata = calldata.take expected_calldata.length) &&
    (match expected.value with
     | none => true
     | some v => decide (v = value))

/-- The per-target increment loop of `after_execution` on a far call:
every matching entry's `actual_count` is bumped by one, the rest are left
unchanged. -/
def incrementExpectedEntries (entries : List (List Nat × ExpectedCallData × Nat))
    (calldata : List Nat) (value : Nat) :
    List (List Nat × ExpectedCallData × Nat) :=
  entries.map fun e =>
    if expectCallMatches e.1 e.2.1 calldata value then
      (e.1, e.2.1, e.2.2 + 1)
    else e

/-- The whole expect-call tracking step on a far-call instruction:
`self.expected_calls.get_mut(&current.code_address)` followed by the
increment loop; addresses without registered entries are untouched. -/
def expectCallOnFarCall (m : ExpectedCallsTracker) (code_address : Nat)
    (calldata : List Nat) (value : Nat) : ExpectedCallsTracker :=
  m.map fun p =>
    if p.1 = code_address then
      (p.1, incrementExpectedEntries p.2 calldata value)
    else p

/-!
## `load` cheatcode (dispatch arm)
-/

/-- The `load(target, slot)` dispatch arm.  `read` is the storage view's
`read_value`.  Returns the return-data words together with the list of
storage keys actually read, so that "storage is not read" is expressible. -/
def loadCheatcode (read : StorageKey → Nat) (target slot : Nat) :
    List Nat × List StorageKey :=
  if target ≠ CHEATCODE_ADDRESS then
    ([read ⟨target, slot⟩], [⟨target, slot⟩])
  else
    ([0], [])

/-!
## Nonce helpers and the `setNonce` cheatcode
-/

/-- Modelled from the spec: `zksync_types::utils::decompose_full_nonce`
(external collaborator), splitting a packed full nonce into
(transaction nonce, deployment nonce) with `DEPLOYMENT_NONCE_INCREMENT = 2^128`. -/
def decompose_full_nonce (full : Nat) : Nat × Nat :=
  (full % 2 ^ 128, full / 2 ^ 128)

/-- Modelled from the spec: `zksync_types::utils::nonces_to_full_nonce`
(external collaborator), packing (transaction nonce, deployment nonce)
into one word. -/
def nonces_to_full_nonce (tx_nonce deploy_nonce : Nat) : Nat :=
  deploy_nonce * 2 ^ 128 + tx_nonce

/-- Modelled from the spec: `zksync_types::get_nonce_key` (external
collaborator), the storage key holding an account's packed nonce in the
nonce-holder system contract (address `0x8003`). -/
def get_nonce_key (account : Nat) : StorageKey :=
  ⟨0x8003, account⟩

/-- `CheatcodeTracer::get_nonce`: read the packed nonce and decompose it. -/
def get_nonce (read : StorageKey → Nat) (account : Nat) : Nat × Nat :=
  decompose_full_nonce (read (get_nonce_key account))

/-- `CheatcodeTracer::set_nonce`: each requested nonce must be strictly
greater than the current one, otherwise the whole operation fails
(`None`) without touching any state; on success a single `StorageWrite`
of the repacked nonce is enqueued and the new pair returned. -/
def set_nonce (s : TracerState) (read : StorageKey → Nat) (account : Nat)
    (tx_nonce deploy_nonce : Option Nat) : Option ((Nat × Nat) × TracerState) :=
  let key := get_nonce_key account
  let nonces := get_nonce read account
  let account_nonce :=
    match tx_nonce with
    | none => some nonces.1
    | some t => if nonces.1 ≥ t then none else some t
  match account_nonce with
  | none => none
  | some an =>
    let deployment_nonce :=
      match deploy_nonce with
      | none => some nonces.2
      | some d => if nonces.2 ≥ d then none else some d
    match deployment_nonce with
    | none => none
    | some dn =>
      let new_full_nonce := nonces_to_full_nonce an dn
      some ((an, dn),
        pushAction s (.StorageWrite key (read key) new_full_nonce))

/-- The `setNonce(account, newNonce)` dispatch arm:
`set_nonce(account, (Some(newNonce), Some(newNonce)))`, leaving the state
unchanged when `set_nonce` reports failure. -/
def dispatchSetNonce (s : TracerState) (read : StorageKey → Nat)
    (account new_nonce : Nat) : TracerState :=
  match set_nonce s read account (some new_nonce) (some new_nonce) with
  | none => s
  | some (_, s2) => s2

/-!
## Expect-revert machinery (`add_expect_revert`, `handle_except_revert`,
`handle_return`)
-/

/-- Byte string of a Rust string literal (each char's code point; the
literals used below are ASCII so this matches their UTF-8 bytes). -/
def strBytes (s : String) : List Nat :=
  s.data.map Char.toNat

/-- `multivm`'s `VmRevertReason` as far as `handle_except_revert` matches
on it: a decoded `Error(string)` payload (`General`, with the message as
its byte string), an unrecognized selector with raw data (`Unknown`), or
any other variant. -/
inductive VmRevertReason
  | General (msg : List Nat)
  | Unknown (function_selector : List Nat) (data : List Nat)
  | Other
deriving DecidableEq, Repr

/-- The failure message of the `General` branch:
`format!("Error != expected error: {} != {}", &msg, expected_reason)`. -/
def errGeneralMsg (msg expected_reason : List Nat) : List Nat :=
  strBytes "Error != expected error: " ++ msg ++ strBytes " != " ++ expected_reason

/-- Rust `{:?}` rendering of a byte vector, used by the `Unknown` branch
of the failure message. -/
def dbgBytes (l : List Nat) : List Nat :=
  strBytes ("[" ++ String.intercalate ", " (l.map toString) ++ "]")

/-- The failure message of the `Unknown` branch:
`format!("Error != expected error: {:?} != {:?}", &data, expected_reason)`. -/
def errUnknownMsg (data expected_reason : List Nat) : List Nat :=
  strBytes "Error != expected error: " ++ dbgBytes data ++ strBytes " != " ++
    dbgBytes expected_reason

/-- `CheatcodeTracer::handle_except_revert`.  `lossy` models
`String::from_utf8_lossy` (identity on valid UTF-8) and `decode` models
`VmRevertReason::from` on the return payload; both are external
collaborators.  `retdata` is the revert payload read from the fat
pointer. -/
def handle_except_revert (lossy : List Nat → List Nat)
    (decode : List Nat → VmRevertReason) (reason : Option (List Nat))
    (op : RetOpcode) (retdata : List Nat) : Except (List Nat) Unit :=
  match op, reason with
  | .Revert, some expected_reason =>
    if expected_reason ≠ [] ∧ retdata = [] then
      .error (strBytes "call reverted as expected, but without data")
    else
      match decode retdata with
      | .General msg =>
        let expected_str := lossy expected_reason
        if msg = expected_str then .ok ()
        else .error (errGeneralMsg msg expected_str)
      | .Unknown _ data =>
        if data = expected_reason then .ok ()
        else .error (errUnknownMsg data expected_reason)
      | .Other => .error (strBytes "unexpected revert reason")
  | .Revert, none => .ok ()
  | .Ok, _ => .error (strBytes "expected revert but call succeeded")
  | .Panic, _ => .error (strBytes "expected revert but call Panicked")

/-- The dummy success data pushed by the passing branch of
`handle_return`: `[0xde, 0xad, 0xbe, 0xef]`. -/
def deadbeef : List Nat := [0xde, 0xad, 0xbe, 0xef]

/-- `CheatcodeTracer::handle_return` (called from `after_execution` on
every instruction): resolves an armed expect-revert when a `Ret` opcode
is observed at the recorded target depth after the returns-to-skip
counter has run out.  `depth` is `state.vm_local_state.callstack.depth()`
after execution, `op` the executed opcode, `retdata` the revert payload
that `handle_except_revert` would read. -/
def handle_return (lossy : List Nat → List Nat)
    (decode : List Nat → VmRevertReason) (s : TracerState) (depth : Nat)
    (op : OpcodeKind) (retdata : List Nat) : TracerState :=
  match s.next_return_action with
  | none => s
  | some action =>
    if depth ≠ action.target_depth then s
    else
      match op with
      | .Ret ret_op =>
        if action.returns_to_skip ≠ 0 then
          { s with
            next_return_action := some
              ({ action with returns_to_skip := action.returns_to_skip - 1 }) }
        else
          match action.action with
          | .ExpectRevert reason _ prev_continue_pc prev_exception_handler_pc =>
            match ret_op with
            | .Revert =>
              match prev_exception_handler_pc, prev_continue_pc with
              | some exception_handler, some continue_pc =>
                { s with
                  one_time_actions := s.one_time_actions ++
                    [match handle_except_revert lossy decode reason .Revert retdata with
                     | .ok _ => .ForceReturn deadbeef continue_pc
                     | .error error => .ForceRevert error exception_handler]
                  next_return_action := none }
              | _, _ => s
            | .Ok =>
              match prev_exception_handler_pc with
              | some exception_handler =>
                match handle_except_revert lossy decode reason .Ok retdata with
                | .error error =>
                  { s with
                    one_time_actions := s.one_time_actions ++
                      [.ForceRevert error exception_handler]
                    next_return_action := none }
                | .ok _ => { s with next_return_action := none }
              | none => s
            | .Panic => s
      | _ => s

/-- `CheatcodeTracer::add_expect_revert`.  The Rust code panics
(`panic!("expectRevert already set")`) when an expectation is already
armed; the panic is modelled as `Except.error` carrying the panic
message.  Otherwise the expectation is armed at `depth - 1` with one
return to skip (the cheatcode frame's own return). -/
def add_expect_revert (s : TracerState) (reason : Option (List Nat))
    (depth : Nat) : Except String TracerState :=
  if (s.next_return_action.map (·.action)).isSome then
    .error "expectRevert already set"
  else
    .ok ({ s with
      next_return_action := some
        ({ target_depth := depth - 1
           action := .ExpectRevert reason (depth - 1) none none
           returns_to_skip := 1 }) })

/-!
## Fork-operation dispatch arms
-/

/-- The fork-related `Vm::VmCalls` variants. -/
inductive ForkCall
  | createSelectFork_0 (urlOrAlias : String)
  | createSelectFork_1 (urlOrAlias : String) (blockNumber : Nat)
  | createFork_0 (urlOrAlias : String)
  | createFork_1 (urlOrAlias : String) (blockNumber : Nat)
  | selectFork (forkId : Nat)
  | rollFork_0 (blockNumber : Nat)
  | rollFork_2 (blockNumber : Nat) (forkId : Nat)
deriving DecidableEq, Repr

/-- The fork-operation arms of `dispatch_cheatcode`.  Only the
`createSelectFork` and `selectFork` arms test
`self.permanent_actions.broadcast.is_none()`; the `createFork` and
`rollFork` arms enqueue unconditionally. -/
def dispatchForkCall (s : TracerState) (c : ForkCall) : TracerState :=
  match c with
  | .createSelectFork_0 url =>
    if s.broadcast.isNone then
      pushAction s (.CreateSelectFork url none)
    else s
  | .createSelectFork_1 url block_number =>
    if s.broadcast.isNone then
      pushAction s (.CreateSelectFork url (some block_number))
    else s
  | .createFork_0 url => pushAction s (.CreateFork url none)
  | .createFork_1 url block_number =>
    pushAction s (.CreateFork url (some block_number))
  | .selectFork fork_id =>
    if s.broadcast.isNone then
      pushAction s (.SelectFork fork_id)
    else s
  | .rollFork_0 block_number => pushAction s (.RollFork block_number none)
  | .rollFork_2 block_number fork_id =>
    pushAction s (.RollFork block_number (some fork_id))

/-!
## Prank/broadcast context operations
-/

/-- The four operations that write `permanent_actions.start_prank` /
`permanent_actions.broadcast` (no other code assigns these fields).
`readOrigin` carries the value `storage.read_value` returns for the
tx-origin key at the time of the call; `caller` and `depth` carry the
call-stack facts `start_broadcast` reads. -/
inductive ContextOp
  | startPrank (sender : Nat) (origin : Option Nat) (readOrigin : Nat)
  | stopPrank (readOrigin : Nat)
  | startBroadcast (new_origin : Option Nat) (depth : Nat) (readOrigin : Nat)
      (caller : Nat)
  | stopBroadcast

/-- `start_prank`: rejected outright when a broadcast is active; with an
origin override it additionally records the previous origin and enqueues
the overriding storage write. -/
def start_prank (s : TracerState) (sender : Nat) (origin : Option Nat)
    (readOrigin : Nat) : TracerState :=
  if s.broadcast.isSome then s
  else
    match origin with
    | none => { s with start_prank := some ⟨sender, none⟩ }
    | some tx_origin =>
      { s with
        one_time_actions := s.one_time_actions ++
          [.StorageWrite txOriginKey readOrigin tx_origin]
        start_prank := some ⟨sender, some readOrigin⟩ }

/-- `stop_prank`: always clears the prank; restores the saved origin via
a scheduled write when one was recorded. -/
def stop_prank (s : TracerState) (readOrigin : Nat) : TracerState :=
  match s.start_prank >>= (·.origin) with
  | some original_tx_origin =>
    { s with
      start_prank := none
      one_time_actions := s.one_time_actions ++
        [.StorageWrite txOriginKey readOrigin original_tx_origin] }
  | none => { s with start_prank := none }

/-- `start_broadcast`: rejected outright when a prank is active. -/
def start_broadcast (s : TracerState) (new_origin : Option Nat) (depth : Nat)
    (readOrigin : Nat) (caller : Nat) : TracerState :=
  if s.start_prank.isSome then s
  else
    { s with
      broadcast := some
        ({ original_origin := readOrigin
           original_caller := caller
           new_origin := new_origin.getD readOrigin
           depth := depth }) }

/-- `stop_broadcast`: clears the broadcast and schedules restoring the
original origin. -/
def stop_broadcast (s : TracerState) : TracerState :=
  match s.broadcast with
  | some broadcast =>
    { s with
      broadcast := none
      one_time_actions := s.one_time_actions ++
        [.SetOrigin broadcast.original_origin] }
  | none => s

/-- Applies one context operation. -/
def applyContextOp (s : TracerState) (op : ContextOp) : TracerState :=
  match op with
  | .startPrank sender origin readOrigin => start_prank s sender origin readOrigin
  | .stopPrank readOrigin => stop_prank s readOrigin
  | .startBroadcast new_origin depth readOrigin caller =>
    start_broadcast s new_origin depth readOrigin caller
  | .stopBroadcast => stop_broadcast s

/-- The tracer states reachable from `Default::default()` through the
operations that touch the prank/broadcast contexts. -/
inductive ReachableCtx : TracerState → Prop
  | init : ReachableCtx initialTracerState
  | step (s : TracerState) (op : ContextOp) :
      ReachableCtx s → ReachableCtx (applyContextOp s op)

/-!
## Snapshot manager (`finish_cycle` arms `Snapshot` / `RevertToSnapshot`)
-/

/-- The state the snapshot arms of `finish_cycle` manipulate: the test's
cumulative storage modifications (`self.storage_modifications.keys`),
the saved snapshots map, and the storage view's pending
`modified_storage_keys` delta, all as lookup-based association lists. -/
structure SnapshotState where
  storage_modifications : List (StorageKey × Nat)
  saved_snapshots : List (Nat × List (StorageKey × Nat))
  modified_storage_keys : List (StorageKey × Nat)
  return_data : Option (List Nat)
deriving DecidableEq, Repr

/-- `CheatcodeTracer::get_modified_storage`: the cumulative test
modifications extended (overridden) by the current pending delta, both
filtered to exclude system-context keys.  In lookup order the pending
delta wins, matching `HashMap::extend`. -/
def get_modified_storage (storage_modifications pending : List (StorageKey × Nat)) :
    List (StorageKey × Nat) :=
  pending.filter (fun p => p.1.address ≠ SYSTEM_CONTEXT_ADDRESS) ++
    storage_modifications.filter (fun p => p.1.address ≠ SYSTEM_CONTEXT_ADDRESS)

/-- The `Snapshot` arm of `finish_cycle`: captures the merged delta,
stores it under the fresh identifier the external backend returns
(`snapshot_id`, a parameter here), makes the merged delta the new pending
delta, and returns the identifier. -/
def applySnapshot (s : SnapshotState) (snapshot_id : Nat) : SnapshotState :=
  let modified_storage :=
    get_modified_storage s.storage_modifications s.modified_storage_keys
  { s with
    saved_snapshots := (snapshot_id, modified_storage) :: s.saved_snapshots
    modified_storage_keys := modified_storage
    return_data := some [snapshot_id] }

/-- The `RevertToSnapshot` arm of `finish_cycle`: the saved entry is
removed (`saved_snapshots.remove(&snapshot_id).unwrap()`; `none` models
the `unwrap` panic on a missing id) and becomes the new pending delta. -/
def applyRevertToSnapshot (s : SnapshotState) (snapshot_id : Nat) :
    Option SnapshotState :=
  match s.saved_snapshots.lookup snapshot_id with
  | none => none
  | some saved =>
    some ({ s with
      saved_snapshots := s.saved_snapshots.filter (fun p => p.1 ≠ snapshot_id)
      modified_storage_keys := saved })

/-- `snapshot()` immediately followed by `revertToSnapshot` on the id it
returned, with no intervening writes. -/
def snapshotRoundTrip (s : SnapshotState) (snapshot_id : Nat) :
    Option SnapshotState :=
  applyRevertToSnapshot (applySnapshot s snapshot_id) snapshot_id

/-!
## Claim theorems
-/

/-- C3: the deferred-action drain of `finish_cycle` applies the queued
one-time actions in reverse of their enqueue order (stack discipline:
`Vec::push` enqueues at the end, the `while let Some(a) = pop()` loop
applies from the end), and `vecPop` removes the action from the queue
before its apply arm runs, so each queued action is applied exactly once:
the applied sequence is exactly the reversal of the enqueued sequence. -/
theorem scheduler_drain_stack_discipline
    (l : List FinishCycleOneTimeActions) (a : FinishCycleOneTimeActions) :
    drainApplied (l ++ [a]) = a :: drainApplied l ∧
    vecPop (l ++ [a]) = some (l, a) ∧
    drainApplied l = l.reverse :=
  ⟨drainApplied_append_singleton l a, vecPop_append_singleton l a,
    drainApplied_eq_reverse l⟩

/-- C9: the `load` cheatcode returns the single zero word without reading
storage when the target is the reserved cheatcode address, and otherwise
returns exactly the word read from storage at `(target, slot)`. -/
theorem load_cheatcode_spec (read : StorageKey → Nat) (target slot : Nat) :
    (target = CHEATCODE_ADDRESS → loadCheatcode read target slot = ([0], [])) ∧
    (target ≠ CHEATCODE_ADDRESS →
      loadCheatcode read target slot =
        ([read ⟨target, slot⟩], [⟨target, slot⟩])) := by
  constructor <;> intro h <;> simp [loadCheatcode, h]

/-- Witness for C9 at the reserved address and at target 5, slot 7. -/
theorem load_cheatcode_spec_witness :
    loadCheatcode (fun k => k.address + k.key) CHEATCODE_ADDRESS 0 = ([0], []) ∧
    loadCheatcode (fun k => k.address + k.key) 5 7 = ([12], [⟨5, 7⟩]) := by
  refine ⟨(load_cheatcode_spec _ CHEATCODE_ADDRESS 0).1 rfl, ?_⟩
  have h := (load_cheatcode_spec (fun k => k.address + k.key) 5 7).2 (by decide)
  exact h.trans (by decide)

/-- C10: `setNonce(account, N)` succeeds iff both the current transaction
nonce and the current deployment nonce are strictly below `N`; on failure
nothing is enqueued and the tracer state is returned unchanged; on
success exactly one `StorageWrite` is enqueued, repacking both nonces as
`N` (the packed value decomposes back to `(N, N)`). -/
theorem set_nonce_spec (s : TracerState) (read : StorageKey → Nat)
    (account N : Nat) :
    ((get_nonce read account).1 < N ∧ (get_nonce read account).2 < N →
      set_nonce s read account (some N) (some N) =
        some ((N, N), pushAction s (.StorageWrite (get_nonce_key account)
          (read (get_nonce_key account)) (nonces_to_full_nonce N N))) ∧
      dispatchSetNonce s read account N =
        pushAction s (.StorageWrite (get_nonce_key account)
          (read (get_nonce_key account)) (nonces_to_full_nonce N N))) ∧
    (¬((get_nonce read account).1 < N ∧ (get_nonce read account).2 < N) →
      set_nonce s read account (some N) (some N) = none ∧
      dispatchSetNonce s read account N = s) ∧
    (N < 2 ^ 128 → decompose_full_nonce (nonces_to_full_nonce N N) = (N, N)) := by
  refine ⟨?_, ?_, ?_⟩
  · rintro ⟨h1, h2⟩
    have e : set_nonce s read account (some N) (some N) =
        some ((N, N), pushAction s (.StorageWrite (get_nonce_key account)
          (read (get_nonce_key account)) (nonces_to_full_nonce N N))) := by
      simp only [set_nonce]
      rw [if_neg (by omega), if_neg (by omega)]
    exact ⟨e, by simp only [dispatchSetNonce, e]⟩
  · intro h
    have e : set_nonce s read account (some N) (some N) = none := by
      simp only [set_nonce]
      rcases Nat.lt_or_ge (get_nonce read account).1 N with h1 | h1
      · rw [if_neg (by omega), if_pos (by omega)]
      · rw [if_pos (by omega)]
    exact ⟨e, by simp only [dispatchSetNonce, e]⟩
  · intro hN
    simp only [decompose_full_nonce, nonces_to_full_nonce]
    rw [Nat.mul_comm, Nat.mul_add_mod, Nat.mod_eq_of_lt hN,
      Nat.mul_add_div (by positivity), Nat.div_eq_of_lt hN, Nat.add_zero]

/-- Witness for C10: nonces `(3, 4)` packed at the key of account 9;
`setNonce` to 10 succeeds with a single repacking write, `setNonce` to 2
fails and changes nothing. -/
theorem set_nonce_spec_witness :
    dispatchSetNonce initialTracerState
        (fun k => if k = get_nonce_key 9 then 4 * 2 ^ 128 + 3 else 0) 9 10 =
      pushAction initialTracerState
        (.StorageWrite (get_nonce_key 9) (4 * 2 ^ 128 + 3)
          (nonces_to_full_nonce 10 10)) ∧
    dispatchSetNonce initialTracerState
        (fun k => if k = get_nonce_key 9 then 4 * 2 ^ 128 + 3 else 0) 9 2 =
      initialTracerState ∧
    decompose_full_nonce (nonces_to_full_nonce 10 10) = (10, 10) := by
  have hget : get_nonce
      (fun k => if k = get_nonce_key 9 then 4 * 2 ^ 128 + 3 else 0) 9 = (3, 4) := by
    simp only [get_nonce, decompose_full_nonce, eq_self_iff_true, if_true]
    rw [Nat.mul_comm, Nat.mul_add_mod, Nat.mod_eq_of_lt (by norm_num),
      Nat.mul_add_div (by positivity), Nat.div_eq_of_lt (by norm_num),
      Nat.add_zero]
  have h1 := (set_nonce_spec initialTracerState
    (fun k => if k = get_nonce_key 9 then 4 * 2 ^ 128 + 3 else 0) 9 10).1
    (by rw [hget]; exact ⟨by norm_num, by norm_num⟩)
  have h2 := (set_nonce_spec initialTracerState
    (fun k => if k = get_nonce_key 9 then 4 * 2 ^ 128 + 3 else 0) 9 2).2.1
    (by rw [hget]; rintro ⟨ha, -⟩; omega)
  have h3 := (set_nonce_spec initialTracerState
    (fun k => if k = get_nonce_key 9 then 4 * 2 ^ 128 + 3 else 0) 9 10).2.2
    (by norm_num)
  refine ⟨?_, h2.2, h3⟩
  have := h1.2
  simpa [if_pos rfl] using this

/-- C6: on a far-call instruction, the expect-call tracker bumps
`actual_count` by one for exactly the entries of the target address whose
registered calldata is a byte-prefix of the call's calldata (length at
most the call's, equal bytes over that length) and whose declared value,
when present, equals the transferred value; all other entries keep their
count. -/
theorem expect_call_increment
    (m : ExpectedCallsTracker) (address : Nat)
    (entries : List (List Nat × ExpectedCallData × Nat))
    (calldata : List Nat) (value : Nat)
    (cd : List Nat) (expected : ExpectedCallData) (actual : Nat)
    (hm : (address, entries) ∈ m) (he : (cd, expected, actual) ∈ entries) :
    (cd, expected,
        actual + if expectCallMatches cd expected calldata value then 1 else 0) ∈
      incrementExpectedEntries entries calldata value ∧
    (expectCallMatches cd expected calldata value = true ↔
      (cd.length ≤ calldata.length ∧ cd = calldata.take cd.length ∧
        (expected.value = none ∨ expected.value = some value))) ∧
    (address, incrementExpectedEntries entries calldata value) ∈
      expectCallOnFarCall m address calldata value := by
  refine ⟨?_, ?_, ?_⟩
  · have : (cd, expected,
        actual + if expectCallMatches cd expected calldata value then 1 else 0) =
        (fun e : List Nat × ExpectedCallData × Nat =>
          if expectCallMatches e.1 e.2.1 calldata value then
            (e.1, e.2.1, e.2.2 + 1)
          else e) (cd, expected, actual) := by
      by_cases hc : expectCallMatches cd expected calldata value <;> simp [hc]
    rw [this]
    exact List.mem_map_of_mem _ he
  · cases hv : expected.value <;>
      simp [expectCallMatches, hv, and_assoc]
  · have : (address, incrementExpectedEntries entries calldata value) =
        (fun p : Nat × List (List Nat × ExpectedCallData × Nat) =>
          if p.1 = address then
            (p.1, incrementExpectedEntries p.2 calldata value)
          else p) (address, entries) := by simp
    rw [this]
    exact List.mem_map_of_mem _ hm

/-- Witness for C6: one matching entry (calldata `[1, 2]` against call
`[1, 2, 9]`, declared value matching) gets its count bumped, the
non-prefix entry `[3]` keeps its count. -/
theorem expect_call_increment_witness :
    ([1, 2], ({ value := some 5, count := 2, call_type := .Count } : ExpectedCallData),
        1) ∈
      incrementExpectedEntries
        [([1, 2], { value := some 5, count := 2, call_type := .Count }, 0),
         ([3], { value := none, count := 1, call_type := .NonCount }, 0)]
        [1, 2, 9] 5 ∧
    ([3], ({ value := none, count := 1, call_type := .NonCount } : ExpectedCallData),
        0) ∈
      incrementExpectedEntries
        [([1, 2], { value := some 5, count := 2, call_type := .Count }, 0),
         ([3], { value := none, count := 1, call_type := .NonCount }, 0)]
        [1, 2, 9] 5 := by
  constructor
  · have h := (expect_call_increment
      [(7, [([1, 2], { value := some 5, count := 2, call_type := .Count }, 0),
            ([3], { value := none, count := 1, call_type := .NonCount }, 0)])]
      7
      [([1, 2], { value := some 5, count := 2, call_type := .Count }, 0),
       ([3], { value := none, count := 1, call_type := .NonCount }, 0)]
      [1, 2, 9] 5 [1, 2] { value := some 5, count := 2, call_type := .Count } 0
      (by simp) (by simp)).1
    simpa using h
  · have h := (expect_call_increment
      [(7, [([1, 2], { value := some 5, count := 2, call_type := .Count }, 0),
            ([3], { value := none, count := 1, call_type := .NonCount }, 0)])]
      7
      [([1, 2], { value := some 5, count := 2, call_type := .Count }, 0),
       ([3], { value := none, count := 1, call_type := .NonCount }, 0)]
      [1, 2, 9] 5 [3] { value := none, count := 1, call_type := .NonCount } 0
      (by simp) (by simp)).1
    simpa using h

/-- C1: when the test lifecycle reaches `Finished`, the expected-call
assertions run: an `Exact`-kind (`Count`) entry fails iff its actual
count differs from its expected count, an `AtLeast`-kind (`NonCount`)
entry fails iff its actual count is strictly below its expected count;
a failing entry is reported with the target address, the calldata, and
the actual versus expected counts; the whole check passes iff no entry
fails. -/
theorem expected_calls_finish_assert
    (ts : FoundryTestState) (op : OpcodeKind) (code_address depth : Nat)
    (m : ExpectedCallsTracker) (address : Nat)
    (entries : List (List Nat × ExpectedCallData × Nat))
    (cd : List Nat) (expected : ExpectedCallData) (actual : Nat)
    (hfin : updateTestStatus ts op code_address depth = .Finished)
    (hm : (address, entries) ∈ m) (he : (cd, expected, actual) ∈ entries) :
    afterExecutionFinishCheck ts op code_address depth m =
      some (expectedCallFailures m) ∧
    (expectedCallFailed expected actual = true ↔
      ((expected.call_type = .Count ∧ actual ≠ expected.count) ∨
       (expected.call_type = .NonCount ∧ actual < expected.count))) ∧
    (expectedCallFailed expected actual = true →
      (⟨address, cd, actual, expected.count⟩ : ExpectedCallFailure) ∈
        expectedCallFailures m) ∧
    (expectedCallFailures m = [] ↔
      ∀ p ∈ m, ∀ e ∈ p.2, expectedCallFailed e.2.1 e.2.2 = false) := by
  refine ⟨?_, ?_, ?_, ?_⟩
  · simp [afterExecutionFinishCheck, hfin]
  · cases hct : expected.call_type with
    | Count =>
      simp only [expectedCallFailed, hct, decide_eq_true_eq]
      constructor
      · intro h2
        exact Or.inl ⟨trivial, fun h3 => h2 h3.symm⟩
      · rintro (⟨-, h2⟩ | ⟨h2, -⟩)
        · exact fun h3 => h2 h3.symm
        · cases h2
    | NonCount =>
      simp only [expectedCallFailed, hct, decide_eq_true_eq, gt_iff_lt]
      constructor
      · intro h2
        exact Or.inr ⟨trivial, h2⟩
      · rintro (⟨h2, -⟩ | ⟨-, h2⟩)
        · cases h2
        · exact h2
  · intro hfail
    rw [expectedCallFailures, List.mem_flatMap]
    refine ⟨(address, entries), hm, ?_⟩
    rw [List.mem_filterMap]
    exact ⟨(cd, expected, actual), he, by simp [entryFailure, hfail]⟩
  · rw [expectedCallFailures, List.flatMap_eq_nil_iff]
    constructor
    · intro hnil p hp e hep
      have h4 := hnil p hp
      rw [List.filterMap_eq_nil_iff] at h4
      have h5 := h4 e hep
      cases hfe : expectedCallFailed e.2.1 e.2.2
      · rfl
      · simp [entryFailure, hfe] at h5
    · intro hall p hp
      rw [List.filterMap_eq_nil_iff]
      intro e hep
      simp [entryFailure, hall p hp e hep]

/-- Witness for C1: a finished test, one passing `Count` entry and one
failing `NonCount` entry (expected 2, seen 1) reported with its address,
calldata and counts. -/
theorem expected_calls_finish_assert_witness :
    afterExecutionFinishCheck (.Running 4) (.Ret .Ok) 0 3
        [(0xaa, [([1, 2], { value := none, count := 2, call_type := .Count }, 2),
                 ([7], { value := none, count := 2, call_type := .NonCount }, 1)])] =
      some [⟨0xaa, [7], 1, 2⟩] ∧
    (⟨0xaa, [7], 1, 2⟩ : ExpectedCallFailure) ∈
      expectedCallFailures
        [(0xaa, [([1, 2], { value := none, count := 2, call_type := .Count }, 2),
                 ([7], { value := none, count := 2, call_type := .NonCount }, 1)])] := by
  have h := expected_calls_finish_assert (.Running 4) (.Ret .Ok) 0 3
    [(0xaa, [([1, 2], { value := none, count := 2, call_type := .Count }, 2),
             ([7], { value := none, count := 2, call_type := .NonCount }, 1)])]
    0xaa
    [([1, 2], { value := none, count := 2, call_type := .Count }, 2),
     ([7], { value := none, count := 2, call_type := .NonCount }, 1)]
    [7] { value := none, count := 2, call_type := .NonCount } 1
    (by decide) (by simp) (by simp)
  refine ⟨?_, h.2.2.1 (by decide)⟩
  rw [h.1]
  decide

/-- C4 fails as stated: with a broadcast active, `createFork` (and
likewise `rollFork`) still enqueues its action — only the
`createSelectFork`/`selectFork` arms are gated on the broadcast. -/
theorem fork_broadcast_gate_counterexample :
    (({ one_time_actions := []
        next_return_action := none
        start_prank := none
        broadcast := some ⟨1, 2, 3, 4⟩ } : TracerState)).broadcast.isSome = true ∧
    dispatchForkCall
        { one_time_actions := []
          next_return_action := none
          start_prank := none
          broadcast := some ⟨1, 2, 3, 4⟩ } (.createFork_0 "url") =
      { one_time_actions := [.CreateFork "url" none]
        next_return_action := none
        start_prank := none
        broadcast := some ⟨1, 2, 3, 4⟩ } ∧
    dispatchForkCall
        { one_time_actions := []
          next_return_action := none
          start_prank := none
          broadcast := some ⟨1, 2, 3, 4⟩ } (.rollFork_0 10) =
      { one_time_actions := [.RollFork 10 none]
        next_return_action := none
        start_prank := none
        broadcast := some ⟨1, 2, 3, 4⟩ } :=
  ⟨rfl, rfl, rfl⟩

/-- C4 (amended): while a broadcast is active the `createSelectFork` and
`selectFork` arms are rejected (state unchanged, nothing enqueued, so the
backend is never invoked for them), whereas the `createFork` and
`rollFork` arms enqueue their action unconditionally; without an active
broadcast every arm enqueues its action. -/
theorem fork_broadcast_gate_amended (s : TracerState) (url : String)
    (bn fid : Nat) :
    (s.broadcast.isSome →
      dispatchForkCall s (.createSelectFork_0 url) = s ∧
      dispatchForkCall s (.createSelectFork_1 url bn) = s ∧
      dispatchForkCall s (.selectFork fid) = s) ∧
    (s.broadcast.isNone →
      dispatchForkCall s (.createSelectFork_0 url) =
        pushAction s (.CreateSelectFork url none) ∧
      dispatchForkCall s (.createSelectFork_1 url bn) =
        pushAction s (.CreateSelectFork url (some bn)) ∧
      dispatchForkCall s (.selectFork fid) = pushAction s (.SelectFork fid)) ∧
    dispatchForkCall s (.createFork_0 url) = pushAction s (.CreateFork url none) ∧
    dispatchForkCall s (.createFork_1 url bn) =
      pushAction s (.CreateFork url (some bn)) ∧
    dispatchForkCall s (.rollFork_0 bn) = pushAction s (.RollFork bn none) ∧
    dispatchForkCall s (.rollFork_2 bn fid) =
      pushAction s (.RollFork bn (some fid)) := by
  cases hb : s.broadcast <;>
    simp [dispatchForkCall, hb]

/-- Witness for C4 (amended) at a broadcast-active state: the
fork-selecting arms are no-ops, `createFork` still enqueues. -/
theorem fork_broadcast_gate_amended_witness :
    dispatchForkCall
        { one_time_actions := []
          next_return_action := none
          start_prank := none
          broadcast := some ⟨5, 6, 7, 8⟩ } (.createSelectFork_0 "u") =
      { one_time_actions := []
        next_return_action := none
        start_prank := none
        broadcast := some ⟨5, 6, 7, 8⟩ } ∧
    dispatchForkCall
        { one_time_actions := []
          next_return_action := none
          start_prank := none
          broadcast := some ⟨5, 6, 7, 8⟩ } (.createFork_0 "u") =
      pushAction
        { one_time_actions := []
          next_return_action := none
          start_prank := none
          broadcast := some ⟨5, 6, 7, 8⟩ } (.CreateFork "u" none) := by
  refine ⟨((fork_broadcast_gate_amended
    { one_time_actions := []
      next_return_action := none
      start_prank := none
      broadcast := some ⟨5, 6, 7, 8⟩ } "u" 0 0).1 rfl).1, ?_⟩
  exact (fork_broadcast_gate_amended
    { one_time_actions := []
      next_return_action := none
      start_prank := none
      broadcast := some ⟨5, 6, 7, 8⟩ } "u" 0 0).2.2.1

theorem lookup_filter_ne_self {β : Type} (l : List (Nat × β)) (k : Nat) :
    (l.filter (fun p => p.1 ≠ k)).lookup k = none := by
  induction l with
  | nil => rfl
  | cons p ps ih =>
    obtain ⟨a, b⟩ := p
    rw [List.filter_cons]
    by_cases hp : a = k
    · rw [if_neg (by simp [hp])]
      exact ih
    · rw [if_pos (by simp [hp])]
      have hbeq : (k == a) = false := beq_eq_false_iff_ne.mpr (Ne.symm hp)
      simp only [List.lookup, hbeq]
      exact ih

/-- C5 fails as stated: `snapshot()` itself replaces the pending delta by
the merged delta (test-cumulative modifications folded in, system-context
keys dropped), and `revertToSnapshot` restores that merged delta, so the
round trip is not a no-op on the pending delta.  Concretely, with a
cumulative test modification at key `(1, 0) ↦ 5` and an empty pending
delta, the round trip produces a pending delta containing `(1, 0) ↦ 5`. -/
theorem snapshot_roundtrip_counterexample :
    (snapshotRoundTrip
        { storage_modifications := [(⟨1, 0⟩, 5)]
          saved_snapshots := []
          modified_storage_keys := []
          return_data := none } 0).map
      (fun s2 => s2.modified_storage_keys.lookup ⟨1, 0⟩) = some (some 5) ∧
    (List.lookup ⟨1, 0⟩
      ({ storage_modifications := [(⟨1, 0⟩, 5)]
         saved_snapshots := []
         modified_storage_keys := []
         return_data := none } : SnapshotState).modified_storage_keys) = none := by
  constructor <;> rfl

/-- C5 (amended): `snapshot()` followed immediately by
`revertToSnapshot(id)` with no intervening writes leaves the pending
delta equal to the delta captured by the snapshot — the merge of the
test's cumulative modifications with the pre-snapshot pending delta,
both with system-context keys filtered out (so it equals the
pre-snapshot delta exactly when that merge adds and removes nothing) —
and the snapshot entry is consumed, so a second `revertToSnapshot` with
the same id fails. -/
theorem snapshot_roundtrip_amended (s : SnapshotState) (snapshot_id : Nat) :
    snapshotRoundTrip s snapshot_id = some
      ({ storage_modifications := s.storage_modifications
         saved_snapshots := s.saved_snapshots.filter (fun p => p.1 ≠ snapshot_id)
         modified_storage_keys :=
           get_modified_storage s.storage_modifications s.modified_storage_keys
         return_data := some [snapshot_id] }) ∧
    (snapshotRoundTrip s snapshot_id).bind
      (fun s2 => applyRevertToSnapshot s2 snapshot_id) = none := by
  have hrt : snapshotRoundTrip s snapshot_id = some
      ({ storage_modifications := s.storage_modifications
         saved_snapshots := s.saved_snapshots.filter (fun p => p.1 ≠ snapshot_id)
         modified_storage_keys :=
           get_modified_storage s.storage_modifications s.modified_storage_keys
         return_data := some [snapshot_id] }) := by
    simp [snapshotRoundTrip, applySnapshot, applyRevertToSnapshot,
      List.lookup, List.filter_cons]
  refine ⟨hrt, ?_⟩
  rw [hrt]
  have h2 : applyRevertToSnapshot
      ({ storage_modifications := s.storage_modifications
         saved_snapshots := s.saved_snapshots.filter (fun p => p.1 ≠ snapshot_id)
         modified_storage_keys :=
           get_modified_storage s.storage_modifications s.modified_storage_keys
         return_data := some [snapshot_id] }) snapshot_id = none := by
    simp only [applyRevertToSnapshot, lookup_filter_ne_self]
  exact h2

/-- C7 fails as stated: calling `expectRevert` while an expectation is
already armed does not merely log and drop the request — the code panics
with "expectRevert already set" (modelled as the `error` result), which
aborts the VM execution instead of leaving it running. -/
theorem expect_revert_rearm_counterexample :
    add_expect_revert
        { one_time_actions := []
          next_return_action := some ⟨3, .ExpectRevert none 3 none none, 1⟩
          start_prank := none
          broadcast := none } none 5 =
      .error "expectRevert already set" := rfl

/-- C7 (amended): calling `expectRevert` while already armed panics with
the message "expectRevert already set" — the new request is not recorded
and no state change happens, but the failure is a panic that aborts
execution, not a logged no-op; when no expectation is armed the request
arms one at `depth - 1` with one return to skip. -/
theorem expect_revert_rearm_amended (s : TracerState)
    (reason : Option (List Nat)) (depth : Nat) :
    (s.next_return_action.isSome = true →
      add_expect_revert s reason depth = .error "expectRevert already set") ∧
    (s.next_return_action = none →
      add_expect_revert s reason depth = .ok
        ({ s with
           next_return_action := some
             ({ target_depth := depth - 1
                action := .ExpectRevert reason (depth - 1) none none
                returns_to_skip := 1 }) })) := by
  cases hn : s.next_return_action <;>
    simp [add_expect_revert, hn]

/-- Witness for C7 (amended): the armed case panics, the idle case arms. -/
theorem expect_revert_rearm_amended_witness :
    add_expect_revert
        { one_time_actions := []
          next_return_action := some ⟨2, .ExpectRevert (some [1]) 2 none none, 0⟩
          start_prank := none
          broadcast := none } (some [9]) 4 =
      .error "expectRevert already set" ∧
    add_expect_revert initialTracerState (some [9]) 4 = .ok
      ({ initialTracerState with
         next_return_action := some
           ({ target_depth := 3
              action := .ExpectRevert (some [9]) 3 none none
              returns_to_skip := 1 }) }) := by
  constructor
  · exact (expect_revert_rearm_amended
      { one_time_actions := []
        next_return_action := some ⟨2, .ExpectRevert (some [1]) 2 none none, 0⟩
        start_prank := none
        broadcast := none } (some [9]) 4).1 rfl
  · exact (expect_revert_rearm_amended initialTracerState (some [9]) 4).2 rfl

/-- C8: in every state reachable through the operations that write the
prank/broadcast contexts, at most one of the two contexts is active —
`start_prank` refuses to arm while a broadcast is active and
`start_broadcast` refuses while a prank is active, so the two are never
simultaneously set. -/
theorem prank_broadcast_exclusive (s : TracerState) (h : ReachableCtx s) :
    ¬(s.start_prank.isSome = true ∧ s.broadcast.isSome = true) := by
  induction h with
  | init => simp [initialTracerState]
  | step s op hs ih =>
    cases op with
    | startPrank sender origin readOrigin =>
      cases hb : s.broadcast with
      | some b =>
        have he : applyContextOp s (.startPrank sender origin readOrigin) = s := by
          simp [applyContextOp, start_prank, hb]
        rw [he]
        exact ih
      | none =>
        cases origin <;>
          simp [applyContextOp, start_prank, hb]
    | stopPrank readOrigin =>
      cases hsp : s.start_prank >>= (·.origin) <;>
        simp [applyContextOp, stop_prank, hsp]
    | startBroadcast new_origin depth readOrigin caller =>
      cases hp : s.start_prank with
      | some p =>
        have he : applyContextOp s
            (.startBroadcast new_origin depth readOrigin caller) = s := by
          simp [applyContextOp, start_broadcast, hp]
        rw [he]
        exact ih
      | none =>
        simp [applyContextOp, start_broadcast, hp]
    | stopBroadcast =>
      cases hb : s.broadcast with
      | some b =>
        simp [applyContextOp, stop_broadcast, hb]
      | none =>
        have he : applyContextOp s .stopBroadcast = s := by
          simp [applyContextOp, stop_broadcast, hb]
        rw [he]
        exact ih

/-- Witness for C8 at the initial (default) tracer state. -/
theorem prank_broadcast_exclusive_witness :
    ¬(initialTracerState.start_prank.isSome = true ∧
      initialTracerState.broadcast.isSome = true) :=
  prank_broadcast_exclusive initialTracerState ReachableCtx.init

/-- C2: with an expect-revert armed at target depth `D - 1` (skip counter
exhausted, continuation and exception-handler PCs saved from the watched
return's pre-execution hook), observing the watched return resolves the
expectation: a revert with no declared reason passes for any payload; a
revert whose payload decodes to the string message `msg` with declared
reason `R` (valid UTF-8, nonempty payload when `R` is nonempty) passes
iff `msg = R`, scheduling a `ForceReturn` to the saved continuation on
pass and a `ForceRevert` to the saved exception handler on fail, whose
message contains both the actual and the expected reason; a plain
successful return always fails with a `ForceRevert`. -/
theorem expect_revert_resolution
    (lossy : List Nat → List Nat) (decode : List Nat → VmRevertReason)
    (s : TracerState) (tdepth : Nat) (reason : Option (List Nat))
    (continue_pc exception_handler : Nat) (retdata : List Nat)
    (harm : s.next_return_action = some
      ⟨tdepth, .ExpectRevert reason tdepth (some continue_pc)
        (some exception_handler), 0⟩) :
    (reason = none →
      handle_return lossy decode s tdepth (.Ret .Revert) retdata =
        { s with
          one_time_actions := s.one_time_actions ++
            [.ForceReturn deadbeef continue_pc]
          next_return_action := none }) ∧
    (∀ R msg, reason = some R → decode retdata = .General msg →
      lossy R = R → (R ≠ [] → retdata ≠ []) →
      ((msg = R →
        handle_return lossy decode s tdepth (.Ret .Revert) retdata =
          { s with
            one_time_actions := s.one_time_actions ++
              [.ForceReturn deadbeef continue_pc]
            next_return_action := none }) ∧
       (msg ≠ R →
        handle_return lossy decode s tdepth (.Ret .Revert) retdata =
          { s with
            one_time_actions := s.one_time_actions ++
              [.ForceRevert (errGeneralMsg msg R) exception_handler]
            next_return_action := none } ∧
        (∃ u v, u ++ msg ++ v = errGeneralMsg msg R) ∧
        (∃ u v, u ++ R ++ v = errGeneralMsg msg R)))) ∧
    (handle_return lossy decode s tdepth (.Ret .Ok) retdata =
      { s with
        one_time_actions := s.one_time_actions ++
          [.ForceRevert (strBytes "expected revert but call succeeded")
            exception_handler]
        next_return_action := none }) := by
  have hred : handle_return lossy decode s tdepth (.Ret .Revert) retdata =
      { s with
        one_time_actions := s.one_time_actions ++
          [match handle_except_revert lossy decode reason .Revert retdata with
           | .ok _ => .ForceReturn deadbeef continue_pc
           | .error error => .ForceRevert error exception_handler]
        next_return_action := none } := by
    simp [handle_return, harm]
  have hredOk : handle_return lossy decode s tdepth (.Ret .Ok) retdata =
      { s with
        one_time_actions := s.one_time_actions ++
          [.ForceRevert (strBytes "expected revert but call succeeded")
            exception_handler]
        next_return_action := none } := by
    simp [handle_return, harm, handle_except_revert]
  refine ⟨?_, ?_, hredOk⟩
  · intro hR
    subst hR
    rw [hred]
    simp [handle_except_revert]
  · intro R msg hR hdec hlossy hnz
    subst hR
    have hguard : ¬(R ≠ [] ∧ retdata = []) := by
      rintro ⟨hR1, hR2⟩
      exact hnz hR1 hR2
    have hher : handle_except_revert lossy decode (some R) .Revert retdata =
        (if msg = R then .ok () else .error (errGeneralMsg msg R)) := by
      simp only [handle_except_revert, if_neg hguard, hdec, hlossy]
    constructor
    · intro hmsg
      rw [hred, hher, if_pos hmsg]
    · intro hmsg
      refine ⟨by rw [hred, hher, if_neg hmsg], ?_, ?_⟩
      · exact ⟨strBytes "Error != expected error: ", strBytes " != " ++ R,
          by simp [errGeneralMsg]⟩
      · exact ⟨strBytes "Error != expected error: " ++ msg ++ strBytes " != ",
          [], by simp [errGeneralMsg]⟩

/-- Witness for C2: armed at depth 1 with declared reason `[66]`, saved
continuation 7 and exception handler 9; the payload `[1]` decodes to
message `[65] ≠ [66]`, so a `ForceRevert` with the diff message goes to
the exception handler, and a plain success schedules a `ForceRevert` as
well. -/
theorem expect_revert_resolution_witness :
    handle_return (fun l => l) (fun _ => .General [65])
        { one_time_actions := []
          next_return_action := some
            ⟨1, .ExpectRevert (some [66]) 1 (some 7) (some 9), 0⟩
          start_prank := none
          broadcast := none } 1 (.Ret .Revert) [1] =
      { one_time_actions := [.ForceRevert (errGeneralMsg [65] [66]) 9]
        next_return_action := none
        start_prank := none
        broadcast := none } ∧
    handle_return (fun l => l) (fun _ => .General [65])
        { one_time_actions := []
          next_return_action := some
            ⟨1, .ExpectRevert (some [66]) 1 (some 7) (some 9), 0⟩
          start_prank := none
          broadcast := none } 1 (.Ret .Ok) [1] =
      { one_time_actions :=
          [.ForceRevert (strBytes "expected revert but call succeeded") 9]
        next_return_action := none
        start_prank := none
        broadcast := none } := by
  have h := expect_revert_resolution (fun l => l) (fun _ => .General [65])
    { one_time_actions := []
      next_return_action := some
        ⟨1, .ExpectRevert (some [66]) 1 (some 7) (some 9), 0⟩
      start_prank := none
      broadcast := none } 1 (some [66]) 7 9 [1] rfl
  refine ⟨?_, h.2.2⟩
  exact ((h.2.1 [66] [65] rfl rfl rfl (fun _ => by decide)).2 (by decide)).1
